import Mathlib

/-!
Verification of the hermes crawler/scraper (Go) against its specification.

The Go sources are embedded shallowly: each Go function used by a claim is
translated into an executable Lean definition of the same name.  The
repository contains several near-duplicate iterations of the crawl core;
where two cited variants differ, both are embedded, the older variant under
a `V6` namespace (file `src/unnamed/part_006`, first unit) and the newer one
at top level (file `src/unnamed/part_007`); the flagless variant of
`enqueueLinks` from `src/parse.go` lives under the `Parse` namespace.
Go strings are Lean `String`s; the Go standard-library string functions the
sources call are modelled in the `GoStrings` namespace by structurally
recursive functions over `List Char`.  A Go slice access that can be out of
range is modelled by an `Option`-valued lookup, so a Go panic surfaces as
`none`.
-/

namespace Hermes

namespace GoStrings

/-- Helper for `split`: walk the character list, cutting at the separator
character.  Models the loop inside Go `strings.Split` for a one-character
separator (the sources only ever split on `"."`). -/
def splitAux (sep : Char) : List Char → List Char → List String
  | [], acc => [String.mk acc.reverse]
  | c :: cs, acc =>
    if c = sep then String.mk acc.reverse :: splitAux sep cs []
    else splitAux sep cs (c :: acc)

/-- Model of Go `strings.Split(s, sep)` for a single-character separator:
the result always has at least one element, and splitting the empty string
yields `[""]`, exactly as in Go. -/
def split (s : String) (sep : Char) : List String :=
  splitAux sep s.toList []

/-- Model of Go `strings.Join(xs, sep)`. -/
def join (sep : String) : List String → String
  | [] => ""
  | [x] => x
  | x :: xs => x ++ sep ++ join sep xs

/-- ASCII whitespace recognizer used by `trimSpace` (Go `unicode.IsSpace`
restricted to the characters that occur in the modelled pages). -/
def isSpace (c : Char) : Bool :=
  c = ' ' || c = '\t' || c = '\n' || c = '\r'

/-- Model of Go `strings.TrimSpace`. -/
def trimSpace (s : String) : String :=
  String.mk (((s.toList.dropWhile isSpace).reverse.dropWhile isSpace).reverse)

/-- Model of Go `strings.Replace(s, old, new, -1)` for one-character `old`
and `new`; the sources only ever call it as `strings.Replace(s, " ", " ", -1)`,
replacing a space by a space. -/
def replaceChar (s : String) (old new : Char) : String :=
  String.mk (s.toList.map (fun c => if c = old then new else c))

/-- Model of Go `strings.Contains(s, sub)`. -/
def containsAux (sub : List Char) : List Char → Bool
  | [] => sub.isEmpty
  | c :: cs => sub.isPrefixOf (c :: cs) || containsAux sub cs

/-- Model of Go `strings.Contains(s, sub)`. -/
def containsStr (s sub : String) : Bool :=
  containsAux sub.toList s.toList

/-- ASCII lower-casing, for `equalFold`. -/
def lowerChar (c : Char) : Char :=
  if 'A' ≤ c ∧ c ≤ 'Z' then Char.ofNat (c.toNat + 32) else c

/-- Model of Go `strings.EqualFold` on ASCII strings. -/
def equalFold (a b : String) : Bool :=
  a.toList.map lowerChar = b.toList.map lowerChar

/-- Go slice indexing `s[i]` with an `int` index: panics (here: `none`)
when the index is negative or past the end. -/
def goIndex (l : List String) (i : Int) : Option String :=
  if i < 0 then none else l.get? i.toNat

end GoStrings

open GoStrings

/- ------------------------------------------------------------------
   src/unnamed/part_007 — domain helpers
   ------------------------------------------------------------------ -/

/-- `getDomain` from `src/unnamed/part_007` (lines 456-472): split the host
on `"."`; with exactly two labels return `s[0] ++ "." ++ s[last]`, with more
return `s[last-1] ++ "." ++ s[last]`.  The named return `root` starts as the
empty string, so a one-label host falls through both branches and yields
`""`.  (`len(s) == 0` is impossible for `strings.Split`, so that branch is
dead; all slice accesses in the live branches are in range, hence the Go
defaults `""` in `getD` are never used.) -/
def getDomain (u : String) : String :=
  let s := split u '.'
  if s.length = 0 then u
  else
    let last := s.length - 1
    if last = 1 then s.getD 0 "" ++ "." ++ s.getD last ""
    else if last > 1 then
      let runnerUp := last - 1
      s.getD runnerUp "" ++ "." ++ s.getD last ""
    else ""

/-- `getTLD` from `src/unnamed/part_007` (lines 474-486).  The body sets
`tld = s[last]` in the `len(s) > 0` branch but then unconditionally executes
`tld = u` before returning, so the function returns the whole host for every
input that reaches the fall-through (only the dead `len(s) == 0` branch
returns early). -/
def getTLD (u : String) : String :=
  let s := split u '.'
  if s.length = 0 then u
  else
    let last := s.length - 1
    let _tld := s.getD last ""
    u

/-- `normalizeLink` from `src/unnamed/part_007` (lines 429-441), restricted
to its effect on the host: if the first dot-separated label is `"www"` the
host becomes the join of the remaining labels, otherwise (including the dead
`len(s) == 0` branch, which only logs) the host is unchanged. -/
def normalizeHost (host : String) : String :=
  let s := split host '.'
  if s.length = 0 then host
  else if s.getD 0 "" = "www" then join "." (s.drop 1)
  else host

/- ------------------------------------------------------------------
   src/unnamed/part_006 (first unit) — older domain helpers
   ------------------------------------------------------------------ -/

namespace V6

/-- `getDomain` from `src/unnamed/part_006` (lines 245-252): unconditionally
computes `s[last-1] + "." + s[last]`.  For a one-label host such as
`"localhost"`, `last = 0` and `runnerUp = -1`, so the access `s[runnerUp]`
is out of range and the Go program panics: modelled as `none`. -/
def getDomain (u : String) : Option String :=
  let s := split u '.'
  let last : Int := (s.length : Int) - 1
  let runnerUp : Int := last - 1
  match goIndex s runnerUp, goIndex s last with
  | some a, some b => some (a ++ "." ++ b)
  | _, _ => none

/-- `getTLD` from `src/unnamed/part_006` (lines 254-260): the last
dot-separated label (always in range since `strings.Split` is nonempty). -/
def getTLD (u : String) : String :=
  let s := split u '.'
  let last := s.length - 1
  s.getD last ""

end V6

/- ------------------------------------------------------------------
   URLs, crawl state, and link admission
   ------------------------------------------------------------------ -/

/-- The fields of Go `net/url.URL` the crawl logic reads and writes. -/
structure URL where
  scheme : String
  host : String
  path : String
  fragment : String
deriving Repr, DecidableEq

/-- Model of `net/url.URL.String()` for the URL shapes the crawler handles:
`scheme:` then `//host` when a host is present, then the path, then
`#fragment` when a fragment is present. -/
def URL.str (u : URL) : String :=
  u.scheme ++ ":" ++ (if u.host = "" then "" else "//" ++ u.host) ++ u.path ++
    (if u.fragment = "" then "" else "#" ++ u.fragment)

/-- The crawl-run state the link-admission code mutates: the global `dup`
map (a set of URL strings) and the fetch queue the `SendStringHead` calls
feed (in order). -/
structure CrawlState where
  dup : List String
  queue : List String
deriving Repr, DecidableEq

/-- The scope configuration of a `Runner` (`src/unnamed/part_007` lines
55-71): the root URL's host and the two scope toggles. -/
structure RunnerCfg where
  rootHost : String
  topLevelDomain : Bool
  subdomain : Bool
deriving Repr, DecidableEq

/-- `addLink` from `src/unnamed/part_007` (lines 443-454): send the URL
string to the queue as a HEAD request and record it in `dup`.  The
`SendStringHead` error path (queue already closed) is external I/O and is
modelled as always succeeding. -/
def addLink (st : CrawlState) (s : String) : CrawlState :=
  { dup := s :: st.dup, queue := st.queue ++ [s] }

/-- The in-place mutation `normalizeLink(u)` performed on the parsed
candidate: only the host changes. -/
def normalizeURL (u : URL) : URL :=
  { u with host := normalizeHost u.host }

/-- The body of `enqueueLinks` from `src/unnamed/part_007` (lines 297-427)
for one `a[href]` candidate whose href parsed into `u0` (the parse-error and
missing-attribute paths return without touching the state).  In source
order: the `mailto:` check on `u.String()`, the fragment check,
`normalizeLink` (rewrites the host), the `dup` lookup, then the three
mutually exclusive scope branches, each enqueueing via `addLink` when its
domain comparison succeeds. -/
def processLink (r : RunnerCfg) (st : CrawlState) (u0 : URL) : CrawlState :=
  if containsStr u0.str "mailto:" then st
  else if u0.fragment ≠ "" then st
  else
    let u : URL := normalizeURL u0
    if u.str ∈ st.dup then st
    else
      -- tld & subdomain
      let st1 :=
        if r.topLevelDomain = true ∧ r.subdomain = true then
          if getDomain r.rootHost = getDomain u.host then addLink st u.str else st
        else st
      -- tld check
      let st2 :=
        if r.topLevelDomain = true ∧ r.subdomain = false then
          if getDomain r.rootHost = getTLD u.host then addLink st1 u.str else st1
        else st1
      -- subdomain check
      let st3 :=
        if r.subdomain = true ∧ r.topLevelDomain = false then
          if getDomain r.rootHost = getDomain u.host then addLink st2 u.str else st2
        else st2
      st3

namespace Parse

/-- The body of `enqueueLinks` from `src/parse.go` (lines 254-276) for one
resolved candidate URL string: no scope flags, only the duplicate check;
a fresh string is sent as a HEAD request and marked in `dup`. -/
def enqueueStep (st : CrawlState) (s : String) : CrawlState :=
  if s ∈ st.dup then st
  else { dup := s :: st.dup, queue := st.queue ++ [s] }

/-- A whole page's link pass: `enqueueLinks` folds `enqueueStep` over the
candidate URL strings in document order. -/
def enqueueLinks (st : CrawlState) (ls : List String) : CrawlState :=
  ls.foldl enqueueStep st

end Parse

/- ------------------------------------------------------------------
   src/scrape.go — content extraction
   ------------------------------------------------------------------ -/

/-- The `Document` struct from `src/store.go` (lines 22-30).  `ID` is
assigned at ingestion time and `Time` is wall-clock state outside the
embedding; both are irrelevant to the extraction logic and `Time` is
omitted. -/
structure Document where
  id : String := ""
  title : String := ""
  description : String := ""
  content : String := ""
  link : String := ""
  tag : String := ""
deriving Repr, DecidableEq

/-- An element inside `<body>` as the goquery selectors see it: its tag
name and its text content (`Selection.Text()` of that element). -/
structure Element where
  tag : String
  text : String
deriving Repr, DecidableEq

/-- The parsed page as `scrapeDocument` queries it: the text of the
`<title>` inside `<head>`, the `(name, content)` attribute pairs of the
`<meta>` elements, and the elements inside `<body>`.  (`html.Parse` always
produces exactly one `<head>` and one `<body>`, so the `Each` loops over
`Find("head")` and `Find("body")` run exactly once.) -/
structure Page where
  titleText : String
  metas : List (String × String)
  body : List Element
deriving Repr, DecidableEq

/-- goquery `Selection.Find(tag).Text()` inside `<body>`: the concatenated
text of all elements with that tag name, in document order, with no
separator between matches. -/
def findTagText (body : List Element) (tag : String) : String :=
  String.join ((body.filter (fun e => e.tag = tag)).map (fun e => e.text))

/-- The whitespace treatment applied throughout `scrapeDocument`:
`strings.TrimSpace(strings.Replace(s, " ", " ", -1))` — the `Replace` call
substitutes a space for a space, so only the trim has any effect. -/
def collapse (s : String) : String :=
  trimSpace (replaceChar s ' ' ' ')

/-- `returnText` from `src/scrape.go` (lines 130-141): for the single
`<body>`, the `"default"` tag appends a space plus all `<p>` text and then a
space plus all `<div>` text; a custom tag appends a space plus that tag's
text.  The accumulator `text` starts empty. -/
def returnText (p : Page) (tag : String) : String :=
  if tag = "default" then
    "" ++ " " ++ findTagText p.body "p" ++ " " ++ findTagText p.body "div"
  else
    "" ++ " " ++ findTagText p.body tag

/-- The `doc.Find("meta").Each` loop of `scrapeDocument`: every `<meta>`
whose `name` attribute case-insensitively equals `"description"` overwrites
`d.Description` with its collapsed `content` attribute, so the last match
wins and the field stays `""` when there is none. -/
def metaDescription (metas : List (String × String)) : String :=
  metas.foldl
    (fun acc m => if equalFold m.1 "description" then collapse m.2 else acc) ""

/-- `generateTag` from `src/scrape.go` (lines 145-153): split the host on
`"."`; if the first label is `"www"` take the second label — an access that
is out of range (a Go panic, modelled as `none`) when the host is the single
label `"www"` — otherwise take the first label.  (`strings.Split` never
returns an empty slice, so `s[0]` itself is always in range and the
`len(s) > 0` conjunct is always true.) -/
def generateTag (u : String) : Option String :=
  let s := split u '.'
  if s.getD 0 "" = "www" ∧ s.length > 0 then s.get? 1
  else some (s.getD 0 "")

/-- `scrapeDocument` from `src/scrape.go` (lines 92-127): collapse the
title, fold the meta descriptions, build the content by appending
`" " ++ collapse (returnText ..)` for each configured tag (or once for
`"default"` when the tag list is empty), then derive the tag label from the
host — the step that can panic, making the whole extraction partial — and
record the page URL in `link`. -/
def scrapeDocument (p : Page) (urlStr : String) (host : String)
    (tags : List String) : Option Document :=
  let title := collapse p.titleText
  let description := metaDescription p.metas
  let content :=
    if tags.length > 0 then
      tags.foldl (fun c tag => c ++ " " ++ collapse (returnText p tag)) ""
    else
      "" ++ " " ++ collapse (returnText p "default")
  match generateTag host with
  | none => none
  | some t =>
    some { title := title, description := description, content := content,
           link := urlStr, tag := t }

/- ------------------------------------------------------------------
   src/unnamed/part_007 — scrape handler (document cap)
   ------------------------------------------------------------------ -/

/-- What one invocation of the wrapped scrape handler leaves behind: the
updated `ingestionSet` and whether it fired `ctx.Q.Cancel()`. -/
structure HandlerResult where
  ingestionSet : List Document
  cancelled : Bool
deriving Repr, DecidableEq

/-- `scrapeHandler` from `src/unnamed/part_007` (lines 255-293), as a
function of the response (`errFree` is `err == nil`, `status` the HTTP
status) and of `Scrape`'s result (`scraped`, plus `scrapeErr` telling
whether `Scrape` returned an error — on error `scraped` is the zero-valued
`Document`).  `n` is `r.MaximumDocuments` (a Go `int`).  When the response
is error-free and the set is below the cap, a 200 response appends
`scraped` — a `Scrape` error is only logged, the document is appended all
the same.  Otherwise, when the set has reached the cap, the handler fires
`Cancel` and returns without processing. -/
def scrapeHandler (n : Int) (ingestionSet : List Document) (errFree : Bool)
    (status : Nat) (scraped : Document) (scrapeErr : Bool) : HandlerResult :=
  if errFree = true ∧ (ingestionSet.length : Int) < n then
    { ingestionSet :=
        if status = 200 then
          let _ := scrapeErr   -- `if err != nil` only logs
          ingestionSet ++ [scraped]
        else ingestionSet,
      cancelled := false }
  else if (ingestionSet.length : Int) ≥ n then
    { ingestionSet := ingestionSet, cancelled := true }
  else
    { ingestionSet := ingestionSet, cancelled := false }

/- ------------------------------------------------------------------
   src/parse.go — Crawl's GET handler (parse failure path)
   ------------------------------------------------------------------ -/

namespace Parse

/-- The run-wide mutable state of `src/parse.go`: the crawl frontier state,
the `ingestionSet`, and the `badLinks` diagnostic list. -/
structure RunState where
  crawl : CrawlState
  ingestionSet : List Document
  badLinks : List String
deriving Repr, DecidableEq

/-- The GET/`text/html` handler of `Crawl` in `src/parse.go` (lines
126-138): `body` is the outcome of `goquery.NewDocumentFromResponse` —
`none` for a malformed body, otherwise the page's candidate link strings.
A parse failure appends the page URL to `badLinks` and returns (no
`Document`, no enqueue); on success the links are passed to
`enqueueLinks`. -/
def getHandler (st : RunState) (pageURL : String)
    (body : Option (List String)) : RunState :=
  match body with
  | none => { st with badLinks := st.badLinks ++ [pageURL] }
  | some links => { st with crawl := enqueueLinks st.crawl links }

end Parse

end Hermes

open Hermes Hermes.GoStrings

/- ------------------------------------------------------------------
   Shared lemmas
   ------------------------------------------------------------------ -/

/-- `getTLD` of part_007 returns its argument: the final `tld = u`
assignment overwrites the computed label on every live path. -/
theorem getTLD_self (u : String) : getTLD u = u := by
  show (if (split u '.').length = 0 then u else u) = u
  split <;> rfl

/-- A host whose first dot-separated label is not `"www"` is left unchanged
by `normalizeHost`. -/
theorem normalizeHost_eq_of_first_label_ne (host : String)
    (hw : (split host '.').getD 0 "" ≠ "www") : normalizeHost host = host := by
  simp only [normalizeHost, if_neg hw, ite_self]

/-- The dedup invariant of one crawl run: every enqueued URL string is
recorded in the `dup` set, and the queue holds no URL twice. -/
def DedupInv (st : CrawlState) : Prop :=
  (∀ x ∈ st.queue, x ∈ st.dup) ∧ st.queue.Nodup

instance (st : CrawlState) : Decidable (DedupInv st) := by
  unfold DedupInv
  infer_instance

theorem enqueueStep_dup_mono (st : CrawlState) (s x : String)
    (hx : x ∈ st.dup) : x ∈ (Parse.enqueueStep st s).dup := by
  unfold Parse.enqueueStep
  split
  · exact hx
  · exact List.mem_cons_of_mem _ hx

theorem enqueueStep_inv (st : CrawlState) (s : String) (h : DedupInv st) :
    DedupInv (Parse.enqueueStep st s) := by
  obtain ⟨h1, h2⟩ := h
  unfold Parse.enqueueStep
  split
  · exact ⟨h1, h2⟩
  · rename_i hs
    refine ⟨?_, ?_⟩
    · intro x hx
      rcases List.mem_append.mp hx with hx | hx
      · exact List.mem_cons_of_mem _ (h1 x hx)
      · rcases List.mem_singleton.mp hx with rfl
        exact List.mem_cons_self _ _
    · rw [List.nodup_append]
      refine ⟨h2, List.nodup_singleton s, ?_⟩
      intro x hx hxs
      rcases List.mem_singleton.mp hxs with rfl
      exact hs (h1 x hx)

theorem enqueueLinks_inv_mono (ls : List String) (st : CrawlState)
    (h : DedupInv st) :
    DedupInv (Parse.enqueueLinks st ls)
      ∧ ∀ x ∈ st.dup, x ∈ (Parse.enqueueLinks st ls).dup := by
  induction ls generalizing st with
  | nil => exact ⟨h, fun x hx => hx⟩
  | cons a as ih =>
    obtain ⟨hi, hm⟩ := ih (Parse.enqueueStep st a) (enqueueStep_inv st a h)
    exact ⟨hi, fun x hx => hm x (enqueueStep_dup_mono st a x hx)⟩

/- ------------------------------------------------------------------
   Claim theorems
   ------------------------------------------------------------------ -/

/-- C1, counterexample.  The claim states that with both scope flags
enabled and root host `blog.example.com`, a discovered link to
`other.example.com` is rejected.  On the code it is enqueued: both hosts
have registrable domain `example.com`, and the both-flags branch of
`enqueueLinks` compares registrable domains. -/
theorem scope_bothFlags_other_enqueued :
    (processLink ⟨"blog.example.com", true, true⟩
      ⟨["http://blog.example.com/"], []⟩
      ⟨"http", "other.example.com", "/", ""⟩).queue
      = ["http://other.example.com/"] := by decide

/-- C1, amended.  With both scope flags enabled and root host
`blog.example.com`: a link to `other.example.com` is accepted (enqueued and
marked seen), a link to `docs.example.com` is accepted, and a link to
`example.org` is rejected, the state left untouched. -/
theorem scope_bothFlags_classification :
    processLink ⟨"blog.example.com", true, true⟩
        ⟨["http://blog.example.com/"], []⟩
        ⟨"http", "other.example.com", "/", ""⟩
      = addLink ⟨["http://blog.example.com/"], []⟩ "http://other.example.com/"
  ∧ processLink ⟨"blog.example.com", true, true⟩
        ⟨["http://blog.example.com/"], []⟩
        ⟨"http", "docs.example.com", "/", ""⟩
      = addLink ⟨["http://blog.example.com/"], []⟩ "http://docs.example.com/"
  ∧ processLink ⟨"blog.example.com", true, true⟩
        ⟨["http://blog.example.com/"], []⟩
        ⟨"http", "example.org", "/", ""⟩
      = ⟨["http://blog.example.com/"], []⟩ := by decide

/-- C2, counterexample.  The claim states that with neither scope flag set,
every candidate surviving normalization and deduplication is enqueued.  On
the code a fresh, clean candidate (`http://docs.example.com/about`, not a
mail link, no fragment, not a duplicate) leaves the state unchanged: no
scope branch runs, so nothing is ever enqueued. -/
theorem scope_noFlags_candidate_dropped :
    processLink ⟨"blog.example.com", false, false⟩
      ⟨["http://blog.example.com/"], []⟩
      ⟨"http", "docs.example.com", "/about", ""⟩
      = ⟨["http://blog.example.com/"], []⟩ := by decide

/-- C2, amended.  With neither the top-level-domain flag nor the subdomain
flag set, `enqueueLinks` enqueues nothing at all: each of its three scope
branches requires a flag, so every candidate is dropped and the crawl state
is unchanged. -/
theorem scope_noFlags_drops_all (r : RunnerCfg) (st : CrawlState) (u0 : URL)
    (hT : r.topLevelDomain = false) (hS : r.subdomain = false) :
    processLink r st u0 = st := by
  unfold processLink
  simp [hT, hS]

/-- Witness for `scope_noFlags_drops_all`. -/
theorem scope_noFlags_drops_all_witness :
    processLink ⟨"blog.example.com", false, false⟩
      ⟨["http://blog.example.com/"], []⟩
      ⟨"http", "blog.example.com", "/about", ""⟩
      = ⟨["http://blog.example.com/"], []⟩ :=
  scope_noFlags_drops_all _ _ _ rfl rfl

/-- C3, confirmed.  Dedup admission is at-most-once per canonical URL
string: starting from any state satisfying the dedup invariant, after any
sequence of admission attempts the queue still holds no URL twice and every
URL present in the dedup set is still present (never removed); moreover a
first attempt for a fresh URL enqueues it and marks it seen, while an
attempt for an already-seen URL leaves the state entirely unchanged. -/
theorem tryAdmit_at_most_once (st : CrawlState) (ls : List String)
    (h : DedupInv st) :
    ((Parse.enqueueLinks st ls).queue.Nodup
      ∧ ∀ x ∈ st.dup, x ∈ (Parse.enqueueLinks st ls).dup)
  ∧ (∀ s, s ∉ st.dup →
      Parse.enqueueStep st s = ⟨s :: st.dup, st.queue ++ [s]⟩)
  ∧ (∀ s, s ∈ st.dup → Parse.enqueueStep st s = st) := by
  obtain ⟨hi, hm⟩ := enqueueLinks_inv_mono ls st h
  refine ⟨⟨hi.2, hm⟩, ?_, ?_⟩
  · intro s hs
    unfold Parse.enqueueStep
    exact if_neg hs
  · intro s hs
    unfold Parse.enqueueStep
    exact if_pos hs

/-- Witness for `tryAdmit_at_most_once`. -/
theorem tryAdmit_at_most_once_witness :
    DedupInv ⟨["http://seed/"], []⟩
  ∧ (Parse.enqueueLinks ⟨["http://seed/"], []⟩
      ["http://a/", "http://a/"]).queue.Nodup
  ∧ "http://seed/" ∈ (Parse.enqueueLinks ⟨["http://seed/"], []⟩
      ["http://a/", "http://a/"]).dup
  ∧ Parse.enqueueStep ⟨["http://seed/"], []⟩ "http://a/"
      = ⟨["http://a/", "http://seed/"], ["http://a/"]⟩
  ∧ Parse.enqueueStep ⟨["http://seed/"], []⟩ "http://seed/"
      = ⟨["http://seed/"], []⟩ := by
  have t := tryAdmit_at_most_once ⟨["http://seed/"], []⟩
    ["http://a/", "http://a/"] (by decide)
  exact ⟨by decide, t.1.1, t.1.2 "http://seed/" (by decide),
    t.2.1 "http://a/" (by decide), t.2.2 "http://seed/" (by decide)⟩

/-- C4, code bug.  The spec requires registrable-domain extraction never to
index out of bounds and to return the whole host when it has at most one or
exactly two labels.  Evaluating the embedded code at the failing input
`"localhost"`: the part_006 `getDomain` reads `s[-1]` and panics (modelled
`none`), and the part_007 `getDomain` falls through both guarded branches
and returns the empty string rather than the host.  Only the two-label case
behaves as specified. -/
theorem getDomain_short_host_eval :
    V6.getDomain "localhost" = none
  ∧ getDomain "localhost" = ""
  ∧ ("" : String) ≠ "localhost"
  ∧ getDomain "a.b" = "a.b" := by decide

/-- C5, counterexample.  The claim states that with only the
top-level-domain flag set, a candidate is accepted exactly when its
registrable domain equals the root's.  On the code the candidate
`docs.example.com`, whose registrable domain `example.com` equals root
`blog.example.com`'s, is rejected: the branch compares
`getDomain(root.Host)` with `getTLD(u.Host)`, and `getTLD` returns the
whole host. -/
theorem tldOnly_registrable_match_rejected :
    processLink ⟨"blog.example.com", true, false⟩
      ⟨["http://blog.example.com/"], []⟩
      ⟨"http", "docs.example.com", "/", ""⟩
      = ⟨["http://blog.example.com/"], []⟩ := by decide

/-- C5, amended.  With only the top-level-domain flag set, a candidate
surviving the mail, fragment and duplicate gates is accepted exactly when
its entire (normalized) host string equals the root host's registrable
domain, because `getTLD` returns its argument unchanged. -/
theorem tldOnly_accepts_iff_host_eq_root_domain (r : RunnerCfg)
    (st : CrawlState) (u0 : URL)
    (hT : r.topLevelDomain = true) (hS : r.subdomain = false)
    (hm : containsStr u0.str "mailto:" = false)
    (hf : u0.fragment = "")
    (hd : (normalizeURL u0).str ∉ st.dup) :
    processLink r st u0 =
      if getDomain r.rootHost = (normalizeURL u0).host
      then addLink st (normalizeURL u0).str
      else st := by
  unfold processLink
  simp [hT, hS, hm, hf, hd, getTLD_self]

/-- Witness for `tldOnly_accepts_iff_host_eq_root_domain`. -/
theorem tldOnly_accepts_iff_host_eq_root_domain_witness :
    processLink ⟨"blog.example.com", true, false⟩
      ⟨["http://blog.example.com/"], []⟩
      ⟨"http", "example.com", "/", ""⟩
      = if getDomain "blog.example.com"
            = (normalizeURL ⟨"http", "example.com", "/", ""⟩).host
        then addLink ⟨["http://blog.example.com/"], []⟩
          (normalizeURL ⟨"http", "example.com", "/", ""⟩).str
        else ⟨["http://blog.example.com/"], []⟩ :=
  tldOnly_accepts_iff_host_eq_root_domain _ _ _ rfl rfl (by decide) rfl
    (by decide)

/-- C6, counterexample.  The claim states that extracting a page whose body
holds two `<p>` tags `"Hello"` and `"World"` with an empty tag list yields
`content = "Hello World"`.  On the code the content is `" HelloWorld"`:
goquery's `Text()` concatenates the two paragraph texts with no separator,
and the handler prepends a space to the collapsed block. -/
theorem extract_hello_world_counterexample :
    (scrapeDocument ⟨"", [], [⟨"p", "Hello"⟩, ⟨"p", "World"⟩]⟩
      "http://site.test/" "site.test" []).map Document.content
      ≠ some "Hello World" := by decide

/-- C6, amended.  Extracting that page produces a Document whose content is
`" HelloWorld"` — a leading space, and the two paragraph texts concatenated
without a separator — and whose link equals the page URL. -/
theorem extract_hello_world_document :
    scrapeDocument ⟨"", [], [⟨"p", "Hello"⟩, ⟨"p", "World"⟩]⟩
      "http://site.test/" "site.test" []
      = some { title := "", description := "", content := " HelloWorld",
               link := "http://site.test/", tag := "site" } := by decide

/-- C7, counterexample.  The claim states that when scraping a page fails
no Document is added and the URL goes to the bad-link list.  In the
part_007 scrape handler a `Scrape` error is only logged: the zero-valued
Document is appended to the ingestion set all the same (and that variant
keeps no bad-link list at all). -/
theorem scrape_error_appends_document :
    (scrapeHandler 5 [] true 200 {} true).ingestionSet
      = [({} : Document)] := by decide

/-- C7, amended.  In `src/parse.go`'s `Crawl`, a malformed HTML body
(`goquery` parse failure) appends the page URL to the bad-link list,
produces no Document, leaves the frontier untouched, and the handler
returns normally so the crawl continues; a `Scrape` error in part_007's
handler, by contrast, still appends the zero-valued Document. -/
theorem parse_failure_records_badlink (st : Parse.RunState)
    (pageURL : String) :
    Parse.getHandler st pageURL none
      = { st with badLinks := st.badLinks ++ [pageURL] } := rfl

/-- C8, counterexample.  The claim states that normalization is idempotent.
`normalizeLink` strips one leading `www` label per application, so for the
host `www.www.example.com` normalizing the result once more changes it
again. -/
theorem normalize_not_idempotent :
    normalizeHost (normalizeHost "www.www.example.com")
      ≠ normalizeHost "www.www.example.com" := by decide

/-- C8, amended.  A URL whose host's first dot-separated label is not
`"www"` is already canonical for `normalizeLink`: normalization returns it
unchanged, and hence normalizing twice equals normalizing once on such
hosts.  Idempotence fails in general, one leading `www` label being
stripped per application. -/
theorem normalize_fixed_on_canonical (host : String)
    (hw : (split host '.').getD 0 "" ≠ "www") :
    normalizeHost host = host
  ∧ normalizeHost (normalizeHost host) = normalizeHost host := by
  have h1 := normalizeHost_eq_of_first_label_ne host hw
  exact ⟨h1, by rw [h1, h1]⟩

/-- Witness for `normalize_fixed_on_canonical`. -/
theorem normalize_fixed_on_canonical_witness :
    (split "blog.example.com" '.').getD 0 "" ≠ "www"
  ∧ (normalizeHost "blog.example.com" = "blog.example.com"
      ∧ normalizeHost (normalizeHost "blog.example.com")
          = normalizeHost "blog.example.com") :=
  ⟨by decide, normalize_fixed_on_canonical "blog.example.com" (by decide)⟩

/-- C9, confirmed.  With `MaximumDocuments` left at its zero value, every
invocation of the part_007 scrape handler — in particular the very first
successful response — takes the cap branch (`len(ingestionSet) >= 0`),
fires `Cancel`, skips all processing, and appends nothing; starting from
the empty ingestion set, `Crawl` therefore returns an empty document
collection. -/
theorem zero_cap_cancels_immediately (docs : List Document) (errFree : Bool)
    (status : Nat) (scraped : Document) (scrapeErr : Bool) :
    scrapeHandler 0 docs errFree status scraped scrapeErr
      = ⟨docs, true⟩ := by
  have h1 : ¬(errFree = true ∧ (docs.length : Int) < 0) := by
    rintro ⟨-, h⟩
    omega
  have h2 : (docs.length : Int) ≥ 0 := by positivity
  simp only [scrapeHandler, if_neg h1, if_pos h2]

/-- C10, confirmed.  For a page whose host is the single label `"www"`,
`generateTag` reads `s[1]` of the one-element label list — an
index-out-of-range panic, modelled `none` — so `scrapeDocument` produces no
Document for such a host: extraction is not total over host strings. -/
theorem generateTag_www_panics :
    generateTag "www" = none
  ∧ scrapeDocument ⟨"t", [], [⟨"p", "x"⟩]⟩ "http://www/" "www" [] = none := by
  decide

